import Mathlib

/-!
A shallow embedding of the `Bind` asynchronous state machine of `egui-async`
(`src/bind.rs`), together with the tick clock it reads (the `CURR_FRAME` and
`LAST_FRAME` statics, advanced by `ContextExt::loop_handle` in `src/egui.rs`).

Modelling conventions:
* `f64` tick timestamps are modelled as exact rationals `ℚ`.  Every timestamp
  the claims manipulate is a small integer, on which `f64` arithmetic is
  exact; the single place where the `f64::MIN` sentinel enters arithmetic is
  `request_every_sec`, where both the exact rational result and the rounded
  `f64` result are enormous negative numbers, so every comparison a claim
  depends on has the same truth value in both semantics.
* The oneshot channel receiver is modelled by a presence flag
  `recv : Option Unit`; what `try_recv` would report at the moment a `poll`
  consults it is an oracle argument `ch : TryRecv T E` chosen freely by the
  environment (this over-approximates the real channel behaviours).
* A Rust panic (a failed `assert!` or `expect`, or the explicit fatal branch
  in `poll`) is modelled by the operation returning `none`; for `fill`, whose
  claim speaks about the fields at the moment of the failure, the fatal
  outcome is `FillResult.fatal b` carrying exactly those fields.
* `Bind` methods that spawn a future (`request` and its callers) model the
  dispatch solely by its observable effects on the binding: a fresh receiver
  is installed and `times_executed` is incremented.  `read_mut_or_request`
  is omitted: its state effect is identical to `read_or_request`.
-/

namespace EguiAsync

/-- Execution state of an asynchronous operation (`State` in `bind.rs`). -/
inductive State
  | idle
  | pending
  | finished
deriving DecidableEq

/-- Rust `Result<T, E>`. -/
inductive RResult (T E : Type)
  | ok (v : T)
  | err (e : E)
deriving DecidableEq

/-- The tick clock: the `CURR_FRAME` and `LAST_FRAME` statics. -/
structure Clock where
  curr : ℚ
  last : ℚ
deriving DecidableEq

/-- `ContextExt::loop_handle` advances the clock:
`LAST_FRAME := old CURR_FRAME; CURR_FRAME := t`. -/
def Clock.advance (c : Clock) (t : ℚ) : Clock := ⟨t, c.curr⟩

/-- Both statics are initialised to `0.0`. -/
def Clock.init : Clock := ⟨0, 0⟩

/-- What the oneshot receiver's `try_recv` reports when `poll` consults it. -/
inductive TryRecv (T E : Type)
  | ready (r : RResult T E)
  | empty
  | closed
deriving DecidableEq

/-- The exact value of the `f64::MIN` sentinel used for `last_complete_time`. -/
def f64MIN : ℚ := -(2 ^ 1024 - 2 ^ 971)

/-- The `Bind<T, E>` struct of `bind.rs`, field for field. -/
structure Bind (T E : Type) where
  drawn_time_last : ℚ
  drawn_time_prev : ℚ
  data : Option (RResult T E)
  recv : Option Unit
  state : State
  last_start_time : ℚ
  last_complete_time : ℚ
  retain : Bool
  times_executed : ℕ
deriving DecidableEq

/-- Outcome of `fill`: `ok` on the success path; `fatal` when the `assert!`
fires, carrying the binding's fields at that moment. -/
inductive FillResult (T E : Type)
  | fatal (b : Bind T E)
  | ok (b : Bind T E)
deriving DecidableEq

variable {T E : Type}

/-- `Bind::new(retain)`. -/
def Bind.new (retain : Bool) : Bind T E :=
  { drawn_time_last := 0
    drawn_time_prev := 0
    data := none
    recv := none
    state := State.idle
    last_start_time := 0
    last_complete_time := f64MIN
    retain := retain
    times_executed := 0 }

/-- `Bind::was_drawn_this_frame`: `drawn_time_last == CURR_FRAME`. -/
def Bind.was_drawn_this_frame (clk : Clock) (b : Bind T E) : Bool :=
  decide (b.drawn_time_last = clk.curr)

/-- `Bind::was_drawn_last_frame`: `drawn_time_prev == LAST_FRAME`. -/
def Bind.was_drawn_last_frame (clk : Clock) (b : Bind T E) : Bool :=
  decide (b.drawn_time_prev = clk.last)

/-- The frame-time shift at the top of `poll`:
`drawn_time_prev := drawn_time_last; drawn_time_last := curr_frame`. -/
def Bind.shiftStep (clk : Clock) (b : Bind T E) : Bind T E :=
  { b with drawn_time_prev := b.drawn_time_last, drawn_time_last := clk.curr }

/-- The retention GC step of `poll`: if `retain` is false and the binding was
not drawn last frame, force `state := Idle` and drop `data`. -/
def Bind.gcStep (clk : Clock) (b : Bind T E) : Bind T E :=
  if b.retain = false ∧ b.was_drawn_last_frame clk = false then
    { b with state := State.idle, data := none }
  else b

/-- The channel-drain step of `poll`: when `Pending`, consult the receiver
(`none` models the two fatal branches: missing receiver, closed channel). -/
def Bind.recvStep (clk : Clock) (ch : TryRecv T E) (b : Bind T E) : Option (Bind T E) :=
  if b.state = State.pending then
    match b.recv with
    | none => none
    | some _ =>
      match ch with
      | TryRecv.ready r =>
          some { b with data := some r
                        last_complete_time := clk.curr
                        state := State.finished
                        recv := none }
      | TryRecv.empty => some b
      | TryRecv.closed => none
  else some b

/-- `Bind::poll`, the single transition driver: same-frame short-circuit,
then shift, retention GC, and channel drain, in source order. -/
def Bind.poll (clk : Clock) (ch : TryRecv T E) (b : Bind T E) : Option (Bind T E) :=
  if clk.curr = b.drawn_time_last then some b
  else ((b.shiftStep clk).gcStep clk).recvStep clk ch

/-- `Bind::prepare_channel`: poll, then record the start time and move to
`Pending`. -/
def Bind.prepare_channel (clk : Clock) (ch : TryRecv T E) (b : Bind T E) :
    Option (Bind T E) :=
  (b.poll clk ch).map fun b1 =>
    { b1 with last_start_time := clk.curr, state := State.pending }

/-- `Bind::request`: prepare the channel, spawn the future (modelled by the
fresh receiver), and increment `times_executed`. -/
def Bind.request (clk : Clock) (ch : TryRecv T E) (b : Bind T E) : Option (Bind T E) :=
  (b.prepare_channel clk ch).map fun b1 =>
    { b1 with recv := some (), times_executed := b1.times_executed + 1 }

/-- `Bind::read`: poll, then borrow the stored data. -/
def Bind.read (clk : Clock) (ch : TryRecv T E) (b : Bind T E) :
    Option (Option (RResult T E) × Bind T E) :=
  (b.poll clk ch).map fun b1 => (b1.data, b1)

/-- `Bind::get_state`: poll, then project the state. -/
def Bind.get_state (clk : Clock) (ch : TryRecv T E) (b : Bind T E) :
    Option (State × Bind T E) :=
  (b.poll clk ch).map fun b1 => (b1.state, b1)

/-- `Bind::since_completed`: poll, then `CURR_FRAME - last_complete_time`. -/
def Bind.since_completed (clk : Clock) (ch : TryRecv T E) (b : Bind T E) :
    Option (ℚ × Bind T E) :=
  (b.poll clk ch).map fun b1 => (clk.curr - b1.last_complete_time, b1)

/-- `Bind::just_started`: poll, then `last_start_time == CURR_FRAME`. -/
def Bind.just_started (clk : Clock) (ch : TryRecv T E) (b : Bind T E) :
    Option (Bool × Bind T E) :=
  (b.poll clk ch).map fun b1 => (decide (b1.last_start_time = clk.curr), b1)

/-- `Bind::request_every_sec`: compute `since_completed`, then start a new
request when not `Pending` and overdue; return `secs - since_completed`. -/
def Bind.request_every_sec (clk : Clock) (ch : TryRecv T E) (secs : ℚ)
    (b : Bind T E) : Option (ℚ × Bind T E) :=
  (b.since_completed clk ch).bind fun p =>
    (p.2.get_state clk ch).bind fun q =>
      (if q.1 ≠ State.pending ∧ p.1 > secs then q.2.request clk ch else some q.2).map
        fun b3 => (secs - p.1, b3)

/-- `Bind::take`: poll; when `Finished`, assert the data is present (the
failed assertion is the `none` outcome), hand it out, and reset to `Idle`. -/
def Bind.take (clk : Clock) (ch : TryRecv T E) (b : Bind T E) :
    Option (Option (RResult T E) × Bind T E) :=
  (b.poll clk ch).bind fun b1 =>
    if b1.state = State.finished then
      match b1.data with
      | none => none
      | some r => some (some r, { b1 with state := State.idle, data := none })
    else some (none, b1)

/-- `Bind::fill`: poll; assert `Idle` (the failed assertion is the `fatal`
outcome, carrying the post-poll fields untouched), then store the injected
result, stamp `last_complete_time`, and move to `Finished`. -/
def Bind.fill (clk : Clock) (ch : TryRecv T E) (d : RResult T E) (b : Bind T E) :
    Option (FillResult T E) :=
  (b.poll clk ch).map fun b1 =>
    if b1.state = State.idle then
      FillResult.ok { b1 with state := State.finished
                              last_complete_time := clk.curr
                              data := some d }
    else FillResult.fatal b1

/-- `Bind::clear`: poll, then reset to `Idle` and drop the data (the
receiver field is left untouched, as in the source). -/
def Bind.clear (clk : Clock) (ch : TryRecv T E) (b : Bind T E) : Option (Bind T E) :=
  (b.poll clk ch).map fun b1 => { b1 with state := State.idle, data := none }

/-- `Bind::refresh`: `clear` followed by `request`. -/
def Bind.refresh (clk : Clock) (ch : TryRecv T E) (b : Bind T E) : Option (Bind T E) :=
  (b.clear clk ch).bind fun b1 => b1.request clk ch

/-- The `StateWithData` view type of `bind.rs` (references modelled by
values). -/
inductive StateWithData (T E : Type)
  | idle
  | pending
  | finished (v : T)
  | failed (e : E)
deriving DecidableEq

/-- `Bind::state`: poll, then the tagged view; the `Finished`-without-data
arm demotes the binding to `Idle` instead of failing. -/
def Bind.stateView (clk : Clock) (ch : TryRecv T E) (b : Bind T E) :
    Option (StateWithData T E × Bind T E) :=
  (b.poll clk ch).map fun b1 =>
    match b1.state, b1.data with
    | State.idle, _ => (StateWithData.idle, b1)
    | State.pending, _ => (StateWithData.pending, b1)
    | State.finished, some (RResult.ok v) => (StateWithData.finished v, b1)
    | State.finished, some (RResult.err e) => (StateWithData.failed e, b1)
    | State.finished, none => (StateWithData.idle, { b1 with state := State.idle })

/-- `Bind::state_or_request`: poll; request when `Idle` with no data; then
return the tagged view (whose internal poll short-circuits). -/
def Bind.state_or_request (clk : Clock) (ch : TryRecv T E) (b : Bind T E) :
    Option (StateWithData T E × Bind T E) :=
  (b.poll clk ch).bind fun b1 =>
    (if b1.data.isNone = true ∧ b1.state = State.idle then b1.request clk ch
     else some b1).bind fun b2 => b2.stateView clk ch

/-- `Bind::read_or_request`: poll; request when `Idle` with no data; then
borrow the stored data. -/
def Bind.read_or_request (clk : Clock) (ch : TryRecv T E) (b : Bind T E) :
    Option (Option (RResult T E) × Bind T E) :=
  (b.poll clk ch).bind fun b1 =>
    (if b1.data.isNone = true ∧ b1.state = State.idle then b1.request clk ch
     else some b1).map fun b2 => (b2.data, b2)

/-! ### Helper lemmas about the `poll` pipeline -/

/-- `poll` short-circuits when the binding was already polled this frame. -/
theorem poll_shortcircuit {clk : Clock} (ch : TryRecv T E) {b : Bind T E}
    (h : clk.curr = b.drawn_time_last) : b.poll clk ch = some b := by
  unfold Bind.poll
  simp [h]

theorem gcStep_or (clk : Clock) (b : Bind T E) :
    b.gcStep clk = { b with state := State.idle, data := none } ∨ b.gcStep clk = b := by
  unfold Bind.gcStep
  split
  · exact Or.inl rfl
  · exact Or.inr rfl

theorem gcStep_of_retain {clk : Clock} {b : Bind T E} (h : b.retain = true) :
    b.gcStep clk = b := by
  unfold Bind.gcStep
  rw [if_neg]
  simp [h]

theorem recvStep_some {clk : Clock} {ch : TryRecv T E} {b b' : Bind T E}
    (h : b.recvStep clk ch = some b') :
    b' = b ∨ (b.state = State.pending ∧ ∃ r, ch = TryRecv.ready r ∧
      b' = { b with data := some r, last_complete_time := clk.curr,
                    state := State.finished, recv := none }) := by
  unfold Bind.recvStep at h
  split at h
  · rename_i hpend
    split at h
    · exact absurd h (by simp)
    · split at h
      · rename_i r
        exact Or.inr ⟨hpend, r, rfl, (Option.some.inj h).symm⟩
      · exact Or.inl (Option.some.inj h).symm
      · exact absurd h (by simp)
  · exact Or.inl (Option.some.inj h).symm

/-- Characterisation of the successful outcomes of `poll`. -/
theorem poll_some {clk : Clock} {ch : TryRecv T E} {b b' : Bind T E}
    (h : b.poll clk ch = some b') :
    (clk.curr = b.drawn_time_last ∧ b' = b) ∨
    (clk.curr ≠ b.drawn_time_last ∧
      (b' = (b.shiftStep clk).gcStep clk ∨
        (((b.shiftStep clk).gcStep clk).state = State.pending ∧ ∃ r, ch = TryRecv.ready r ∧
          b' = { (b.shiftStep clk).gcStep clk with
                 data := some r, last_complete_time := clk.curr,
                 state := State.finished, recv := none }))) := by
  unfold Bind.poll at h
  split at h
  · rename_i hc
    exact Or.inl ⟨hc, (Option.some.inj h).symm⟩
  · rename_i hc
    rcases recvStep_some h with h1 | ⟨hpend, r, hch, h1⟩
    · exact Or.inr ⟨hc, Or.inl h1⟩
    · exact Or.inr ⟨hc, Or.inr ⟨hpend, r, hch, h1⟩⟩

theorem poll_drawn_time_last {clk : Clock} {ch : TryRecv T E} {b b' : Bind T E}
    (h : b.poll clk ch = some b') : b'.drawn_time_last = clk.curr := by
  rcases poll_some h with ⟨hc, rfl⟩ | ⟨_, hb | ⟨_, _, _, hb⟩⟩
  · exact hc.symm
  · rcases gcStep_or clk (b.shiftStep clk) with hg | hg <;> rw [hb, hg] <;> rfl
  · rcases gcStep_or clk (b.shiftStep clk) with hg | hg <;> rw [hb, hg] <;> rfl

theorem poll_times_executed {clk : Clock} {ch : TryRecv T E} {b b' : Bind T E}
    (h : b.poll clk ch = some b') : b'.times_executed = b.times_executed := by
  rcases poll_some h with ⟨_, rfl⟩ | ⟨_, hb | ⟨_, _, _, hb⟩⟩
  · rfl
  · rcases gcStep_or clk (b.shiftStep clk) with hg | hg <;> rw [hb, hg] <;> rfl
  · rcases gcStep_or clk (b.shiftStep clk) with hg | hg <;> rw [hb, hg] <;> rfl

/-! ### The invariant that actually holds, and the reachability relation -/

/-- The direction of the spec's state/data/receiver invariant that the code
maintains: a `Finished` binding holds data, a `Pending` binding holds a
receiver.  The two converses fail (see the `C1` theorems). -/
def WeakInv (b : Bind T E) : Prop :=
  (b.state = State.finished → b.data.isSome = true) ∧
  (b.state = State.pending → b.recv.isSome = true)

theorem weakInv_new (retain : Bool) : WeakInv (Bind.new (T := T) (E := E) retain) := by
  constructor <;> intro h <;> simp [Bind.new] at h

theorem weakInv_poll {clk : Clock} {ch : TryRecv T E} {b b' : Bind T E}
    (hw : WeakInv b) (h : b.poll clk ch = some b') : WeakInv b' := by
  rcases poll_some h with ⟨_, rfl⟩ | ⟨_, hb | ⟨_, r, _, hb⟩⟩
  · exact hw
  · rcases gcStep_or clk (b.shiftStep clk) with hg | hg <;> rw [hb, hg]
    · constructor <;> intro h <;> simp at h
    · exact hw
  · rw [hb]
    exact ⟨fun _ => rfl, fun h => State.noConfusion h⟩

theorem weakInv_request {clk : Clock} {ch : TryRecv T E} {b b' : Bind T E}
    (h : b.request clk ch = some b') : WeakInv b' := by
  unfold Bind.request Bind.prepare_channel at h
  rcases Option.map_eq_some'.mp h with ⟨b1, h1, rfl⟩
  rcases Option.map_eq_some'.mp h1 with ⟨b2, _, rfl⟩
  constructor <;> intro h <;> simp_all

theorem weakInv_fill {clk : Clock} {ch : TryRecv T E} {d : RResult T E} {b b' : Bind T E}
    (h : b.fill clk ch d = some (FillResult.ok b')) : WeakInv b' := by
  unfold Bind.fill at h
  rcases Option.map_eq_some'.mp h with ⟨b1, _, h2⟩
  split at h2
  · cases h2
    constructor <;> intro h <;> simp_all
  · exact absurd h2 (by simp)

theorem weakInv_take {clk : Clock} {ch : TryRecv T E} {b b' : Bind T E}
    {r : Option (RResult T E)} (hw : WeakInv b) (h : b.take clk ch = some (r, b')) :
    WeakInv b' := by
  unfold Bind.take at h
  rcases Option.bind_eq_some.mp h with ⟨b1, h1, h2⟩
  have hw1 := weakInv_poll hw h1
  split at h2
  · split at h2
    · exact absurd h2 (by simp)
    · cases h2
      constructor <;> intro h <;> simp_all
  · cases h2
    exact hw1

theorem weakInv_clear {clk : Clock} {ch : TryRecv T E} {b b' : Bind T E}
    (h : b.clear clk ch = some b') : WeakInv b' := by
  unfold Bind.clear at h
  rcases Option.map_eq_some'.mp h with ⟨b1, _, rfl⟩
  constructor <;> intro h <;> simp_all

theorem weakInv_refresh {clk : Clock} {ch : TryRecv T E} {b b' : Bind T E}
    (h : b.refresh clk ch = some b') : WeakInv b' := by
  unfold Bind.refresh at h
  rcases Option.bind_eq_some.mp h with ⟨b1, _, h2⟩
  exact weakInv_request h2

theorem weakInv_request_every_sec {clk : Clock} {ch : TryRecv T E} {secs : ℚ}
    {b b' : Bind T E} {r : ℚ} (hw : WeakInv b)
    (h : b.request_every_sec clk ch secs = some (r, b')) : WeakInv b' := by
  unfold Bind.request_every_sec Bind.since_completed Bind.get_state at h
  rcases Option.bind_eq_some.mp h with ⟨p, hp, h2⟩
  rcases Option.map_eq_some'.mp hp with ⟨b1, hb1, rfl⟩
  rcases Option.bind_eq_some.mp h2 with ⟨q, hq, h3⟩
  rcases Option.map_eq_some'.mp hq with ⟨b2, hb2, rfl⟩
  rcases Option.map_eq_some'.mp h3 with ⟨b3, hb3, h4⟩
  have hw2 := weakInv_poll (weakInv_poll hw hb1) hb2
  cases h4
  split at hb3
  · exact weakInv_request hb3
  · cases Option.some.inj hb3
    exact hw2

theorem weakInv_stateView {clk : Clock} {ch : TryRecv T E} {b b' : Bind T E}
    {v : StateWithData T E} (hw : WeakInv b) (h : b.stateView clk ch = some (v, b')) :
    WeakInv b' := by
  unfold Bind.stateView at h
  rcases Option.map_eq_some'.mp h with ⟨b1, h1, h2⟩
  have hw1 := weakInv_poll hw h1
  split at h2 <;> cases h2 <;> first
    | exact hw1
    | · constructor <;> intro h <;> simp_all

theorem weakInv_state_or_request {clk : Clock} {ch : TryRecv T E} {b b' : Bind T E}
    {v : StateWithData T E} (hw : WeakInv b)
    (h : b.state_or_request clk ch = some (v, b')) : WeakInv b' := by
  unfold Bind.state_or_request at h
  rcases Option.bind_eq_some.mp h with ⟨b1, h1, h2⟩
  rcases Option.bind_eq_some.mp h2 with ⟨b2, h3, h4⟩
  have hw1 := weakInv_poll hw h1
  have hw2 : WeakInv b2 := by
    split at h3
    · exact weakInv_request h3
    · cases Option.some.inj h3
      exact hw1
  exact weakInv_stateView hw2 h4

theorem weakInv_read_or_request {clk : Clock} {ch : TryRecv T E} {b b' : Bind T E}
    {v : Option (RResult T E)} (hw : WeakInv b)
    (h : b.read_or_request clk ch = some (v, b')) : WeakInv b' := by
  unfold Bind.read_or_request at h
  rcases Option.bind_eq_some.mp h with ⟨b1, h1, h2⟩
  rcases Option.map_eq_some'.mp h2 with ⟨b2, h3, h4⟩
  have hw1 := weakInv_poll hw h1
  cases h4
  split at h3
  · exact weakInv_request h3
  · cases Option.some.inj h3
    exact hw1

/-- The states of a `Bind` reachable from construction by any interleaving of
the public operations, clock advances, and channel completions (the oracle
argument of each step ranges over all channel behaviours). -/
inductive Reachable : Clock → Bind T E → Prop
  | new (c : Clock) (retain : Bool) : Reachable c (Bind.new retain)
  | advance {c : Clock} {b : Bind T E} (t : ℚ) : Reachable c b → Reachable (c.advance t) b
  | poll {c : Clock} {b b' : Bind T E} (ch : TryRecv T E) :
      Reachable c b → b.poll c ch = some b' → Reachable c b'
  | request {c : Clock} {b b' : Bind T E} (ch : TryRecv T E) :
      Reachable c b → b.request c ch = some b' → Reachable c b'
  | request_every {c : Clock} {b b' : Bind T E} (ch : TryRecv T E) (secs r : ℚ) :
      Reachable c b → b.request_every_sec c ch secs = some (r, b') → Reachable c b'
  | refresh {c : Clock} {b b' : Bind T E} (ch : TryRecv T E) :
      Reachable c b → b.refresh c ch = some b' → Reachable c b'
  | fill {c : Clock} {b b' : Bind T E} (ch : TryRecv T E) (d : RResult T E) :
      Reachable c b → b.fill c ch d = some (FillResult.ok b') → Reachable c b'
  | take {c : Clock} {b b' : Bind T E} (ch : TryRecv T E) (r : Option (RResult T E)) :
      Reachable c b → b.take c ch = some (r, b') → Reachable c b'
  | clear {c : Clock} {b b' : Bind T E} (ch : TryRecv T E) :
      Reachable c b → b.clear c ch = some b' → Reachable c b'
  | stateView {c : Clock} {b b' : Bind T E} (ch : TryRecv T E) (v : StateWithData T E) :
      Reachable c b → b.stateView c ch = some (v, b') → Reachable c b'
  | state_or_request {c : Clock} {b b' : Bind T E} (ch : TryRecv T E) (v : StateWithData T E) :
      Reachable c b → b.state_or_request c ch = some (v, b') → Reachable c b'
  | read_or_request {c : Clock} {b b' : Bind T E} (ch : TryRecv T E) (v : Option (RResult T E)) :
      Reachable c b → b.read_or_request c ch = some (v, b') → Reachable c b'

theorem weakInv_reachable {c : Clock} {b : Bind T E} (h : Reachable c b) : WeakInv b := by
  induction h with
  | new c retain => exact weakInv_new retain
  | advance t _ ih => exact ih
  | poll ch _ hs ih => exact weakInv_poll ih hs
  | request ch _ hs ih => exact weakInv_request hs
  | request_every ch secs r _ hs ih => exact weakInv_request_every_sec ih hs
  | refresh ch _ hs ih => exact weakInv_refresh hs
  | fill ch d _ hs ih => exact weakInv_fill hs
  | take ch r _ hs ih => exact weakInv_take ih hs
  | clear ch _ hs ih => exact weakInv_clear hs
  | stateView ch v _ hs ih => exact weakInv_stateView ih hs
  | state_or_request ch v _ hs ih => exact weakInv_state_or_request ih hs
  | read_or_request ch v _ hs ih => exact weakInv_read_or_request ih hs

/-! ### C1 -/

/-- C1 (amended): for every reachable state of a binding, `Finished` implies
the stored data is present and `Pending` implies the channel receiver is
present.  The two claimed converses are false on the code (see
`C1_counterexample`): `request` on a `Finished` binding keeps the stale data
while moving to `Pending`, and the retention GC on an undrawn `Pending`
binding resets the state to `Idle` without dropping the receiver. -/
theorem C1_reachable_invariant {c : Clock} {b : Bind T E} (h : Reachable c b) :
    (b.state = State.finished → b.data.isSome = true) ∧
    (b.state = State.pending → b.recv.isSome = true) :=
  weakInv_reachable h

/-- Witness for `C1_reachable_invariant` at the freshly constructed binding. -/
theorem C1_reachable_invariant_witness :
    ((Bind.new true : Bind ℕ ℕ).state = State.finished →
        (Bind.new true : Bind ℕ ℕ).data.isSome = true) ∧
    ((Bind.new true : Bind ℕ ℕ).state = State.pending →
        (Bind.new true : Bind ℕ ℕ).recv.isSome = true) :=
  C1_reachable_invariant (Reachable.new Clock.init true)

/-- The state reached from `Bind::new(true)` by `fill(Ok 0)` at tick 0. -/
def C1mid : Bind ℕ ℕ :=
  { drawn_time_last := 0, drawn_time_prev := 0, data := some (RResult.ok 0),
    recv := none, state := State.finished, last_start_time := 0,
    last_complete_time := 0, retain := true, times_executed := 0 }

/-- The state reached from `C1mid` by `request` at tick 0: `Pending`, yet the
stale data from the `fill` is still present. -/
def C1bad : Bind ℕ ℕ :=
  { drawn_time_last := 0, drawn_time_prev := 0, data := some (RResult.ok 0),
    recv := some (), state := State.pending, last_start_time := 0,
    last_complete_time := 0, retain := true, times_executed := 1 }

/-- C1 as stated is false: `C1bad` is reachable (`new`, `fill`, `request`),
its data is present, yet its state is `Pending`, not `Finished`, refuting
the claimed `data.is_some ⇔ state == Finished`. -/
theorem C1_counterexample :
    Reachable Clock.init C1bad ∧
    ¬ (C1bad.data.isSome = true ↔ C1bad.state = State.finished) := by
  constructor
  · have h1 : (Bind.new true : Bind ℕ ℕ).fill Clock.init TryRecv.empty (RResult.ok 0)
        = some (FillResult.ok C1mid) := by decide
    have h2 : C1mid.request Clock.init TryRecv.empty = some C1bad := by decide
    exact Reachable.request TryRecv.empty
      (Reachable.fill TryRecv.empty (RResult.ok 0) (Reachable.new Clock.init true) h1) h2
  · decide

/-! ### C2 -/

/-- The binding produced by `request_every_sec(_, 10.0)` at tick 0 on
`Bind::new(true)`. -/
def C2bind : Bind ℕ ℕ :=
  { drawn_time_last := 0, drawn_time_prev := 0, data := none, recv := some (),
    state := State.pending, last_start_time := 0, last_complete_time := f64MIN,
    retain := true, times_executed := 1 }

/-- C2 (amended): on an `Idle`, never-completed `Bind::new(true)` at tick 0,
`request_every_sec(factory, 10.0)` does start a new request, but it returns
`10.0 - (0.0 - f64::MIN)` — an enormously negative (overdue) value, because
the sentinel `last_complete_time` makes `since_completed` huge — not `10.0`. -/
theorem C2_tick0_starts_request_returns_overdue :
    (Bind.new true : Bind ℕ ℕ).request_every_sec Clock.init TryRecv.empty 10
      = some (10 - (0 - f64MIN), C2bind) ∧
    C2bind.state = State.pending ∧ C2bind.times_executed = 1 ∧
    10 - (0 - f64MIN) < 0 := by
  have hp : (Bind.new true : Bind ℕ ℕ).poll Clock.init TryRecv.empty
      = some (Bind.new true) := poll_shortcircuit _ rfl
  have hcore : (Bind.new true : Bind ℕ ℕ).request_every_sec Clock.init TryRecv.empty 10
      = some (10 - (0 - f64MIN), C2bind) := by
    simp only [Bind.request_every_sec, Bind.since_completed, Bind.get_state, hp,
      Option.map_some', Option.some_bind]
    split
    · simp only [Bind.request, Bind.prepare_channel, hp, Option.map_some']
      rfl
    · rename_i hcond
      exact absurd ⟨by decide, by norm_num [Bind.new, Clock.init, f64MIN]⟩ hcond
  exact ⟨hcore, rfl, rfl, by norm_num [f64MIN]⟩

/-- C2 as stated is false: the value returned by the tick-0 call is
`10 - (0 - f64::MIN)`, which is not `10`. -/
theorem C2_counterexample :
    ((Bind.new true : Bind ℕ ℕ).request_every_sec Clock.init TryRecv.empty 10).map
        Prod.fst = some (10 - (0 - f64MIN)) ∧
    ¬ ((10 : ℚ) - (0 - f64MIN) = 10) := by
  have hp : (Bind.new true : Bind ℕ ℕ).poll Clock.init TryRecv.empty
      = some (Bind.new true) := poll_shortcircuit _ rfl
  constructor
  · simp only [Bind.request_every_sec, Bind.since_completed, Bind.get_state, hp,
      Option.map_some', Option.some_bind]
    split
    · simp only [Bind.request, Bind.prepare_channel, hp, Option.map_some']
      rfl
    · rename_i hcond
      exact absurd ⟨by decide, by norm_num [Bind.new, Clock.init, f64MIN]⟩ hcond
  · norm_num [f64MIN]

/-! ### C3 -/

/-- C3 (amended): on the logically unreachable `Finished`-without-data
configuration, `state()` demotes the binding to `Idle` without signalling a
fault, but `take()` does not demote: its assertion fires (a panic, modelled
by `none`).  So not every observing operation demotes, and a public
operation does panic on this configuration. -/
theorem C3_state_demotes_take_fatal {b : Bind T E} {c : Clock} (ch : TryRecv T E)
    (h1 : b.state = State.finished) (h2 : b.data = none)
    (h3 : c.curr = b.drawn_time_last) :
    b.stateView c ch = some (StateWithData.idle, { b with state := State.idle }) ∧
    b.take c ch = none := by
  have hp := poll_shortcircuit ch h3
  constructor
  · simp [Bind.stateView, hp, h1, h2]
  · simp [Bind.take, hp, h1, h2]

/-- A binding in the `Finished`-without-data configuration. -/
def C3bind : Bind ℕ ℕ :=
  { drawn_time_last := 0, drawn_time_prev := 0, data := none, recv := none,
    state := State.finished, last_start_time := 0, last_complete_time := 0,
    retain := true, times_executed := 1 }

/-- Witness for `C3_state_demotes_take_fatal` at the concrete configuration. -/
theorem C3_state_demotes_take_fatal_witness :
    C3bind.stateView Clock.init TryRecv.empty
        = some (StateWithData.idle, { C3bind with state := State.idle }) ∧
    C3bind.take Clock.init TryRecv.empty = none :=
  C3_state_demotes_take_fatal TryRecv.empty (by decide) (by decide) (by decide)

/-- C3 as stated is false: `take()` on the `Finished`-without-data
configuration panics (its `assert!` fails; the panic is the `none` outcome)
instead of demoting the binding to `Idle`. -/
theorem C3_counterexample : C3bind.take Clock.init TryRecv.empty = none := by
  decide

/-! ### C4 -/

/-- C4 (confirmed): a `retain = false` binding that is `Finished` and was
last queried at tick `t`, not queried at tick `t+1` (the clock advanced to
`t+1` and then to `t+2` without a query), is observed `Idle` with no data by
a query at tick `t+2`: its shifted previous-draw stamp `t` no longer matches
the clock's previous tick `t+1`, so the retention GC fires. -/
theorem C4_retention_gc {b : Bind T E} (t l0 : ℚ) (ch : TryRecv T E)
    (h1 : b.retain = false) (_h2 : b.state = State.finished)
    (h3 : b.drawn_time_last = t) :
    b.get_state (((Clock.mk t l0).advance (t + 1)).advance (t + 2)) ch
      = some (State.idle,
          { b with drawn_time_prev := t, drawn_time_last := t + 2,
                   state := State.idle, data := none }) := by
  have hc : ((Clock.mk t l0).advance (t + 1)).advance (t + 2) = Clock.mk (t + 2) (t + 1) :=
    rfl
  rw [hc]
  have hne : ¬ ((Clock.mk (t + 2) (t + 1)).curr = b.drawn_time_last) := by
    rw [h3]
    intro h
    simp only [Clock.curr] at h
    linarith
  have hne2 : (b.shiftStep (Clock.mk (t + 2) (t + 1))).was_drawn_last_frame
      (Clock.mk (t + 2) (t + 1)) = false := by
    simp only [Bind.was_drawn_last_frame, Bind.shiftStep, h3, Clock.last, decide_eq_false_iff_not]
    intro h
    linarith
  unfold Bind.get_state Bind.poll
  rw [if_neg hne]
  unfold Bind.gcStep
  rw [if_pos ⟨by simpa [Bind.shiftStep] using h1, hne2⟩]
  unfold Bind.recvStep
  rw [if_neg (by simp)]
  simp [Bind.shiftStep, h3]

/-- A concrete `retain = false` binding, `Finished` at tick 0. -/
def C4bind : Bind ℕ ℕ :=
  { drawn_time_last := 0, drawn_time_prev := 0, data := some (RResult.ok 1),
    recv := none, state := State.finished, last_start_time := 0,
    last_complete_time := 0, retain := false, times_executed := 1 }

/-- Witness for `C4_retention_gc` at `C4bind` with `t = 0`. -/
theorem C4_retention_gc_witness :
    C4bind.get_state (((Clock.mk 0 0).advance (0 + 1)).advance (0 + 2)) TryRecv.empty
      = some (State.idle,
          { C4bind with drawn_time_prev := 0, drawn_time_last := 0 + 2,
                        state := State.idle, data := none }) :=
  C4_retention_gc 0 0 TryRecv.empty (by decide) (by decide) (by decide)

/-! ### C5 -/

/-- One read-only query step at an arbitrary clock and channel oracle.  The
`poll` constructor covers every read operation that merely projects the
post-poll state (`read`, `read_mut`, `get_state`, `is_*`, `just_*`,
`since_*`, `get_*`); the `stateView` constructor covers `state()`, the one
query whose projection can also demote. -/
inductive ReadOnlyStep : Bind T E → Bind T E → Prop
  | poll (c : Clock) (ch : TryRecv T E) {b b' : Bind T E} :
      b.poll c ch = some b' → ReadOnlyStep b b'
  | stateView (c : Clock) (ch : TryRecv T E) {b b' : Bind T E} {v : StateWithData T E} :
      b.stateView c ch = some (v, b') → ReadOnlyStep b b'

theorem readOnlyStep_retain_finished {b b' : Bind T E} {r : RResult T E}
    (hret : b.retain = true) (hst : b.state = State.finished) (hd : b.data = some r)
    (h : ReadOnlyStep b b') :
    b'.retain = true ∧ b'.state = State.finished ∧ b'.data = some r := by
  have hpoll : ∀ (c : Clock) (ch : TryRecv T E) (b2 : Bind T E),
      b.poll c ch = some b2 →
      b2.retain = true ∧ b2.state = State.finished ∧ b2.data = some r := by
    intro c ch b2 hp
    have hgc : (b.shiftStep c).gcStep c = b.shiftStep c :=
      gcStep_of_retain (by simpa [Bind.shiftStep] using hret)
    rcases poll_some hp with ⟨_, rfl⟩ | ⟨_, hb | ⟨hpend, _, _, _⟩⟩
    · exact ⟨hret, hst, hd⟩
    · rw [hb, hgc]
      exact ⟨by simpa [Bind.shiftStep] using hret, by simpa [Bind.shiftStep] using hst,
        by simpa [Bind.shiftStep] using hd⟩
    · rw [hgc] at hpend
      rw [show (b.shiftStep c).state = b.state from rfl, hst] at hpend
      exact absurd hpend (by decide)
  cases h with
  | poll c ch hp => exact hpoll c ch _ hp
  | stateView c ch hs =>
      unfold Bind.stateView at hs
      rcases Option.map_eq_some'.mp hs with ⟨b1, hp, hmatch⟩
      obtain ⟨hr1, hr2, hr3⟩ := hpoll _ _ _ hp
      cases r with
      | ok v0 =>
          rw [hr2, hr3] at hmatch  -- reduce the match
          cases hmatch
          exact ⟨hr1, hr2, hr3⟩
      | err e0 =>
          rw [hr2, hr3] at hmatch
          cases hmatch
          exact ⟨hr1, hr2, hr3⟩

/-- C5 (confirmed): with `retain = true`, a `Finished` result survives every
sequence of clock advances and read-only queries: no matter how many ticks
pass or how often (or rarely) the binding is queried, the state stays
`Finished` and the stored data is untouched until `take`, `clear`, or a new
request intervenes. -/
theorem C5_retain_keeps_data {b b' : Bind T E} {r : RResult T E}
    (hret : b.retain = true) (hst : b.state = State.finished) (hd : b.data = some r)
    (h : Relation.ReflTransGen ReadOnlyStep b b') :
    b'.state = State.finished ∧ b'.data = some r := by
  suffices hs : b'.retain = true ∧ b'.state = State.finished ∧ b'.data = some r from
    ⟨hs.2.1, hs.2.2⟩
  induction h with
  | refl => exact ⟨hret, hst, hd⟩
  | tail _ hstep ih => exact readOnlyStep_retain_finished ih.1 ih.2.1 ih.2.2 hstep

/-- A concrete `retain = true` binding, `Finished` with stored data. -/
def C5bind : Bind ℕ ℕ :=
  { drawn_time_last := 0, drawn_time_prev := 0, data := some (RResult.ok 1),
    recv := none, state := State.finished, last_start_time := 0,
    last_complete_time := 0, retain := true, times_executed := 1 }

/-- Witness for `C5_retain_keeps_data` at `C5bind` after a real query step
at a later tick (drawn stamps shift, but state and data survive). -/
theorem C5_retain_keeps_data_witness :
    ({ C5bind with drawn_time_prev := 0, drawn_time_last := 5 } : Bind ℕ ℕ).state
        = State.finished ∧
    ({ C5bind with drawn_time_prev := 0, drawn_time_last := 5 } : Bind ℕ ℕ).data
        = some (RResult.ok 1) :=
  @C5_retain_keeps_data ℕ ℕ C5bind
    { C5bind with drawn_time_prev := 0, drawn_time_last := 5 }
    (RResult.ok 1) (by decide) (by decide) (by decide)
    (Relation.ReflTransGen.single (ReadOnlyStep.poll (Clock.mk 5 4) TryRecv.empty
      (by decide)))

/-! ### C6 -/

/-- C6 (confirmed): within one tick, once `poll` has run, every further poll
— under any channel oracle — returns the binding completely unchanged (the
drawn stamps are not shifted again and no second receive is processed), so
the read operations merely project it; `state()` also leaves it unchanged
whenever `Finished` implies data present. -/
theorem C6_same_tick_idempotent {c : Clock} {b b' : Bind T E} (ch ch' : TryRecv T E)
    (h : b.poll c ch = some b') :
    b'.poll c ch' = some b' ∧
    b'.read c ch' = some (b'.data, b') ∧
    b'.get_state c ch' = some (b'.state, b') ∧
    ((b'.state = State.finished → b'.data.isSome = true) →
      ∃ v, b'.stateView c ch' = some (v, b')) := by
  have hp : b'.poll c ch' = some b' :=
    poll_shortcircuit ch' (poll_drawn_time_last h).symm
  refine ⟨hp, by simp [Bind.read, hp], by simp [Bind.get_state, hp], ?_⟩
  intro hw
  unfold Bind.stateView
  rw [hp, Option.map_some']
  cases hs : b'.state with
  | idle => exact ⟨StateWithData.idle, by simp [hs]⟩
  | pending => exact ⟨StateWithData.pending, by simp [hs]⟩
  | finished =>
      rcases Option.isSome_iff_exists.mp (hw hs) with ⟨r, hr⟩
      cases r with
      | ok v => exact ⟨StateWithData.finished v, by simp [hs, hr]⟩
      | err e => exact ⟨StateWithData.failed e, by simp [hs, hr]⟩

/-- Witness for `C6_same_tick_idempotent`: the fresh binding polled at the
initial clock. -/
theorem C6_same_tick_idempotent_witness :
    (Bind.new true : Bind ℕ ℕ).poll Clock.init TryRecv.empty
        = some (Bind.new true) ∧
    (Bind.new true : Bind ℕ ℕ).read Clock.init TryRecv.empty
        = some ((Bind.new true : Bind ℕ ℕ).data, Bind.new true) ∧
    (Bind.new true : Bind ℕ ℕ).get_state Clock.init TryRecv.empty
        = some ((Bind.new true : Bind ℕ ℕ).state, Bind.new true) ∧
    (((Bind.new true : Bind ℕ ℕ).state = State.finished →
        (Bind.new true : Bind ℕ ℕ).data.isSome = true) →
      ∃ v, (Bind.new true : Bind ℕ ℕ).stateView Clock.init TryRecv.empty
        = some (v, Bind.new true)) :=
  @C6_same_tick_idempotent ℕ ℕ Clock.init (Bind.new true) (Bind.new true)
    TryRecv.empty TryRecv.empty (poll_shortcircuit TryRecv.empty rfl)

/-! ### C7 -/

/-- C7 (amended): `take` returns the stored result and resets to `Idle`
exactly when the post-poll state is `Finished` (with the data that is then
present), and returns `None` leaving the post-poll binding unchanged
otherwise; in particular a `take` in the same tick as an observed `Ok(v)`
completion returns exactly `Some(Ok(v))` and leaves the binding `Idle`.
The original "same-or-later-tick" phrasing is false for `retain = false`
when an intervening tick is skipped (see `C7_counterexample`). -/
theorem C7_take_roundtrip {c : Clock} {b b' : Bind T E} (ch : TryRecv T E)
    (h : b.poll c ch = some b') :
    (∀ r, b'.state = State.finished → b'.data = some r →
        b.take c ch = some (some r, { b' with state := State.idle, data := none })) ∧
    (b'.state ≠ State.finished → b.take c ch = some (none, b')) ∧
    (∀ v, b.state = State.finished → b.data = some (RResult.ok v) →
        c.curr = b.drawn_time_last →
        b.take c ch = some (some (RResult.ok v),
          { b with state := State.idle, data := none })) := by
  refine ⟨?_, ?_, ?_⟩
  · intro r hs hd
    unfold Bind.take
    rw [h, Option.some_bind, if_pos hs, hd]
  · intro hs
    unfold Bind.take
    rw [h, Option.some_bind, if_neg hs]
  · intro v hs hd hc
    unfold Bind.take
    rw [poll_shortcircuit ch hc, Option.some_bind, if_pos hs, hd]

/-- Witness for `C7_take_roundtrip`: a same-tick take on a `Finished`
binding holding `Ok 1`. -/
theorem C7_take_roundtrip_witness :
    C5bind.take Clock.init TryRecv.empty
      = some (some (RResult.ok 1), { C5bind with state := State.idle, data := none }) :=
  (@C7_take_roundtrip ℕ ℕ Clock.init C5bind C5bind TryRecv.empty
      (poll_shortcircuit TryRecv.empty rfl)).2.2 1 (by decide) (by decide) rfl

/-- The binding left by the later-tick scenario of `C7_counterexample`. -/
def C7gone : Bind ℕ ℕ :=
  { drawn_time_last := 3, drawn_time_prev := 1, data := none, recv := none,
    state := State.idle, last_start_time := 0, last_complete_time := 1,
    retain := false, times_executed := 1 }

/-- C7's "same-or-later-tick" clause is false as stated: a request's future
resolves to `Ok 5`, the completion is observed by a query at tick 1, the
binding (`retain = false`, the default) is not queried at tick 2, and the
`take` at tick 3 returns `None` — the retention GC already dropped the data
— instead of the claimed `Some(Ok 5)`. -/
theorem C7_counterexample :
    (((Bind.new false : Bind ℕ ℕ).request (Clock.mk 0 0) TryRecv.empty).bind fun b1 =>
      (b1.poll (Clock.mk 1 0) (TryRecv.ready (RResult.ok 5))).bind fun b2 =>
        b2.take (Clock.mk 3 2) TryRecv.empty)
      = some (none, C7gone) ∧
    (none : Option (RResult ℕ ℕ)) ≠ some (RResult.ok 5) := by
  exact ⟨by decide, by decide⟩

/-! ### C8 -/

/-- C8 (confirmed): `fill` on a post-poll `Idle` binding stores exactly the
injected result, stamps `last_complete_time` with the clock's current time,
and moves to `Finished` without dispatching any task (`times_executed` is
unchanged from before the call); `fill` when the post-poll state is not
`Idle` — e.g. immediately after a successful `fill` — is the fatal
assertion, whose panic carries the post-poll fields unmodified. -/
theorem C8_fill_idle_or_fatal {c : Clock} {b b' : Bind T E} (ch : TryRecv T E)
    (d : RResult T E) (h : b.poll c ch = some b') :
    (b'.state = State.idle →
        b.fill c ch d = some (FillResult.ok
          { b' with state := State.finished, last_complete_time := c.curr,
                    data := some d }) ∧
        b'.times_executed = b.times_executed) ∧
    (b'.state ≠ State.idle → b.fill c ch d = some (FillResult.fatal b')) := by
  constructor
  · intro hs
    refine ⟨?_, poll_times_executed h⟩
    unfold Bind.fill
    rw [h, Option.map_some', if_pos hs]
  · intro hs
    unfold Bind.fill
    rw [h, Option.map_some', if_neg hs]

/-- The binding produced by `fill(Ok 5)` at tick 0 on `Bind::new(false)`. -/
def C8fin : Bind ℕ ℕ :=
  { drawn_time_last := 0, drawn_time_prev := 0, data := some (RResult.ok 5),
    recv := none, state := State.finished, last_start_time := 0,
    last_complete_time := 0, retain := false, times_executed := 0 }

/-- Witness for `C8_fill_idle_or_fatal`: `fill(Ok 5)` on the fresh `Idle`
binding succeeds with no dispatch, and an immediate second `fill` is the
fatal assertion. -/
theorem C8_fill_idle_or_fatal_witness :
    (Bind.new false : Bind ℕ ℕ).fill Clock.init TryRecv.empty (RResult.ok 5)
        = some (FillResult.ok C8fin) ∧
    C8fin.fill Clock.init TryRecv.empty (RResult.ok 6)
        = some (FillResult.fatal C8fin) :=
  ⟨((@C8_fill_idle_or_fatal ℕ ℕ Clock.init (Bind.new false) (Bind.new false)
      TryRecv.empty (RResult.ok 5) (poll_shortcircuit TryRecv.empty rfl)).1
      (by decide)).1,
   (@C8_fill_idle_or_fatal ℕ ℕ Clock.init C8fin C8fin
      TryRecv.empty (RResult.ok 6) (poll_shortcircuit TryRecv.empty rfl)).2
      (by decide)⟩

/-! ### C9 -/

/-- C9 (confirmed): `refresh` is observationally `clear` followed by
`request`: it is that very composition, and whenever it succeeds it leaves
the binding `Pending` with the data cleared, a fresh channel receiver
installed, `last_start_time` equal to the clock's current time, and the
execution count incremented by exactly one. -/
theorem C9_refresh_equiv {c : Clock} {b b' : Bind T E} (ch : TryRecv T E)
    (h : b.refresh c ch = some b') :
    ((b.clear c ch).bind fun b1 => b1.request c ch) = some b' ∧
    b'.state = State.pending ∧ b'.data = none ∧ b'.recv = some () ∧
    b'.last_start_time = c.curr ∧ b'.times_executed = b.times_executed + 1 := by
  refine ⟨h, ?_⟩
  unfold Bind.refresh at h
  rcases Option.bind_eq_some.mp h with ⟨b1, h1, h2⟩
  unfold Bind.clear at h1
  rcases Option.map_eq_some'.mp h1 with ⟨b0, hp0, hb1⟩
  have hd1 : b1.drawn_time_last = c.curr := by
    have hd0 := poll_drawn_time_last hp0
    rw [← hb1]
    exact hd0
  have hp1 : b1.poll c ch = some b1 := poll_shortcircuit ch hd1.symm
  unfold Bind.request Bind.prepare_channel at h2
  rw [hp1, Option.map_some', Option.map_some'] at h2
  have hb' := (Option.some.inj h2).symm
  subst hb'
  refine ⟨rfl, ?_, rfl, rfl, ?_⟩
  · show b1.data = none
    rw [← hb1]
  · show b1.times_executed + 1 = b.times_executed + 1
    have ht : b1.times_executed = b.times_executed := by
      have ht0 := poll_times_executed hp0
      rw [← hb1]
      exact ht0
    rw [ht]

/-- The binding produced by `refresh` at tick 0 on `Bind::new(true)`. -/
def C9bind : Bind ℕ ℕ :=
  { drawn_time_last := 0, drawn_time_prev := 0, data := none, recv := some (),
    state := State.pending, last_start_time := 0, last_complete_time := f64MIN,
    retain := true, times_executed := 1 }

/-- Witness for `C9_refresh_equiv` on the fresh binding at tick 0. -/
theorem C9_refresh_equiv_witness :
    ((Bind.new true : Bind ℕ ℕ).clear Clock.init TryRecv.empty).bind
        (fun b1 => b1.request Clock.init TryRecv.empty) = some C9bind ∧
    C9bind.state = State.pending ∧ C9bind.data = none ∧ C9bind.recv = some () ∧
    C9bind.last_start_time = Clock.init.curr ∧
    C9bind.times_executed = (Bind.new true : Bind ℕ ℕ).times_executed + 1 :=
  @C9_refresh_equiv ℕ ℕ Clock.init (Bind.new true) C9bind TryRecv.empty rfl

/-! ### C10 -/

/-- C10 (confirmed): on a freshly constructed binding at the initial clock
(both timestamps still `0.0`), the first `poll` returns via the
same-timestamp short-circuit, performing no retention GC and draining no
channel under any oracle, and `just_started()` and `was_drawn_this_frame()`
both return `true` — even though no operation was ever started
(`times_executed = 0`) and the binding was never queried: every
zero-initialised stamp equals the clock's initial `0.0`. -/
theorem C10_fresh_first_poll (retain : Bool) (ch ch' : TryRecv T E) :
    (Bind.new retain : Bind T E).poll Clock.init ch = some (Bind.new retain) ∧
    (Bind.new retain : Bind T E).just_started Clock.init ch'
        = some (true, Bind.new retain) ∧
    Bind.was_drawn_this_frame Clock.init (Bind.new retain : Bind T E) = true ∧
    (Bind.new retain : Bind T E).times_executed = 0 := by
  have hp : ∀ ch0 : TryRecv T E,
      (Bind.new retain : Bind T E).poll Clock.init ch0 = some (Bind.new retain) :=
    fun ch0 => poll_shortcircuit ch0 rfl
  refine ⟨hp ch, ?_, rfl, rfl⟩
  unfold Bind.just_started
  rw [hp ch', Option.map_some']
  rfl

end EguiAsync
